import Mathlib

/-!
Verification of the scopehal TinySA driver and channel data model.

Shallow embedding of:
- `OscilloscopeChannel` download-state codes and reference-counted enable state
  (src/scopehal/OscilloscopeChannel.h);
- the `TinySA` constructor's model-parameter switch, sample decoding,
  conversation engine (`ConverseString`, `ConverseSingle`, `ConverseBinary`)
  and `AcquireData` (src/scopehal/TinySA.cpp).

Machine integers are embedded as `Nat`/`Int`; the float sample arithmetic of
`AcquireData` is embedded over `ℚ` (exact for the values involved, see
`decodeSample`).  Transport reads are embedded as explicit event lists: one
event per transport call, recording the bytes delivered, with a dedicated
event for "poll failed and the wall-clock timeout has expired".
-/

set_option maxHeartbeats 1000000

namespace Scopehal

/-! ## OscilloscopeChannel: download state (OscilloscopeChannel.h, lines 150-168) -/

/-- The `DownloadState` enum of `OscilloscopeChannel`. -/
inductive DownloadState where
  | DOWNLOAD_PROGRESS_DISABLED
  | DOWNLOAD_NONE
  | DOWNLOAD_WAITING
  | DOWNLOAD_STARTED
  | DOWNLOAD_FINISHED
  deriving DecidableEq, Repr

/-- The integer value of each `DownloadState` enumerator, as assigned in
OscilloscopeChannel.h lines 153-160. -/
def downloadStateValue : DownloadState → Int
  | .DOWNLOAD_PROGRESS_DISABLED => -3
  | .DOWNLOAD_NONE => -2
  | .DOWNLOAD_WAITING => -1
  | .DOWNLOAD_STARTED => 0
  | .DOWNLOAD_FINISHED => 100

/-! ## OscilloscopeChannel: reference-counted enable state

Modelled from the spec: the bodies of `OscilloscopeChannel::AddRef` and
`OscilloscopeChannel::Release` are not among the sources (only their
declarations, OscilloscopeChannel.h lines 92-93, and the `m_refcount` member,
line 174, are).  Spec sections 3 and 4.2: `AddRef` increments and turns the
channel on when the count was zero; `Release` decrements and powers the
channel off exactly when the count reaches zero; `Release` on a zero count is
a no-op and the count never becomes negative. -/

/-- Channel enable state: the reference count and the on/off flag. -/
structure ChannelState where
  m_refcount : Nat
  enabled : Bool
  deriving DecidableEq, Repr

/-- One call of the cooperative enable API. -/
inductive RefOp where
  | addRef
  | release
  deriving DecidableEq, Repr

/-- Modelled from the spec: `AddRef` turns the channel on when the count was
zero, then increments. -/
def AddRef (s : ChannelState) : ChannelState :=
  { m_refcount := s.m_refcount + 1
    enabled := if s.m_refcount = 0 then true else s.enabled }

/-- Modelled from the spec: `Release` on a zero count is a no-op; otherwise it
decrements and powers the channel off exactly when the count reaches zero. -/
def Release (s : ChannelState) : ChannelState :=
  if s.m_refcount = 0 then s
  else
    { m_refcount := s.m_refcount - 1
      enabled := if s.m_refcount - 1 = 0 then false else s.enabled }

/-- Apply one `RefOp`. -/
def refStep (s : ChannelState) : RefOp → ChannelState
  | .addRef => AddRef s
  | .release => Release s

/-- Run a sequence of `AddRef`/`Release` calls. -/
def runRefOps (s : ChannelState) (ops : List RefOp) : ChannelState :=
  ops.foldl refStep s

/-- A freshly created channel: count zero, disabled. -/
def initChannel : ChannelState := { m_refcount := 0, enabled := false }

/-- Number of `AddRef` calls in a call sequence. -/
def countAddRefs : List RefOp → Nat
  | [] => 0
  | RefOp.addRef :: rest => countAddRefs rest + 1
  | RefOp.release :: rest => countAddRefs rest

/-- Number of `Release` calls in a call sequence. -/
def countReleases : List RefOp → Nat
  | [] => 0
  | RefOp.addRef :: rest => countReleases rest
  | RefOp.release :: rest => countReleases rest + 1

/-- `balancedFrom c ops` holds when, starting from reference count `c`, no
`Release` in `ops` ever arrives while the count is zero: every prefix of the
call sequence has at least as many `AddRef`s (plus the initial count) as
`Release`s. -/
def balancedFrom : Nat → List RefOp → Bool
  | _, [] => true
  | c, RefOp.addRef :: rest => balancedFrom (c + 1) rest
  | c, RefOp.release :: rest => decide (0 < c) && balancedFrom (c - 1) rest

/-! ## TinySA: constructor model-parameter switch (TinySA.cpp, lines 86-103) -/

/-- The `TinySA::Model` enum. -/
inductive Model where
  | TINY_SA
  | TINY_SA_ULTRA
  deriving DecidableEq, Repr

/-- The model-dependent members assigned by the constructor's switch. -/
structure TinySAParams where
  m_freqMin : Int
  m_freqMax : Int
  m_rbwMin : Int
  m_rbwMax : Int
  m_modelDbmOffset : Int
  deriving DecidableEq, Repr

/-- The body of the `default:` case of the constructor's switch
(TinySA.cpp lines 101-102): it contains only `break`, so it leaves every
member unchanged.  The `TINY_SA` case lacks a `break` and falls through into
this case. -/
def switchDefaultCase (p : TinySAParams) : TinySAParams := p

/-- The constructor's switch on `m_tinySAModel` (TinySA.cpp lines 86-103).
The `TINY_SA` branch assigns its members and then falls through (no `break`)
into `switchDefaultCase`. -/
def modelParams : Model → TinySAParams
  | .TINY_SA_ULTRA =>
      { m_freqMin := 0
        m_freqMax := 13000000000
        m_rbwMin := 200
        m_rbwMax := 850000
        m_modelDbmOffset := 174 }
  | .TINY_SA =>
      switchDefaultCase
        { m_freqMin := 0
          m_freqMax := 6000000000
          m_rbwMin := 1
          m_rbwMax := 600000
          m_modelDbmOffset := 128 }

/-! ## TinySA: sample decoding (TinySA.cpp, lines 432-443) -/

/-- The per-sample decode of `TinySA::AcquireData` line 440:
`value = (((float)((data2 << 8) + data1)) / 32) - m_modelDbmOffset`.
Embedded over `ℚ`: with `data1, data2 ≤ 255` the 16-bit sum is below `2 ^ 16`
(exactly representable in single precision), division by the power of two 32
is exact, and subtracting an offset of at most 174 keeps the value a multiple
of `1 / 32` of magnitude below `2 ^ 12`, so every float operation involved is
exact and the `ℚ` value is bit-identical to the float result. -/
def decodeSample (data2 data1 : Nat) (offset : Int) : ℚ :=
  (((data2 <<< 8) + data1 : Nat) : ℚ) / 32 - (offset : ℚ)

/-- The spec's decode formula, written from the spec's words:
`decode(data2,data1,offset) = ((data2<<8)+data1)/32 − offset`. -/
def specDecodeFormula (data2 data1 : Nat) (offset : Int) : ℚ :=
  ((data2 * 256 + data1 : Nat) : ℚ) / 32 - (offset : ℚ)

/-! ## TinySA: resolution bandwidth (TinySA.cpp, lines 494-501) -/

/-- `TinySA::SetResolutionBandwidth`: clamp the requested value to the model
limits (`m_rbw = max(m_rbwMin, rbw); m_rbw = min(m_rbwMax, m_rbw)`), send that
value to the device, then store whatever the device reports back.  Returns
(value sent to the device, stored `m_rbw`), given the value the device
reports.  (The wire string is the sent value scaled to kHz; the value itself
is the clamped Hz quantity.) -/
def SetResolutionBandwidth (p : TinySAParams) (rbw deviceReported : Int) :
    Int × Int :=
  let m1 := max p.m_rbwMin rbw
  let m2 := min p.m_rbwMax m1
  (m2, deviceReported)

/-! ## TinySA: conversation engine (TinySA.cpp, lines 124-298)

One transport-poll per event.  A failed `ReadRawData(1, ...)` poll before the
timeout deadline only executes `continue` and changes no state, so such polls
are elided from the traces; the event `expire` stands for a failed poll at
which `GetTime() - start >= COMMUNICATION_TIMEOUT` already holds. -/

/-- Result of one single-byte transport poll. -/
inductive PollEvt where
  | byte (b : Nat)
  | expire
  deriving DecidableEq, Repr

/-- Why a string-conversation read loop stopped. -/
inductive ConvExit where
  | timeout
  | tooLong
  | trailerFound
  deriving DecidableEq, Repr

/-- Modelled from the spec: `TRAILER_STRING` is defined in TinySA.h, which is
not among the sources; the comment at TinySA.cpp line 187 names the trailer
`"ch>\r\n"` (bytes of `c`, `h`, `>`, CR, LF). -/
def TRAILER_STRING : List Nat := [99, 104, 62, 13, 10]

/-- Modelled from the spec: `EOL_STRING` is defined in TinySA.h, which is not
among the sources; the header line ends in the end-of-line marker CR LF. -/
def EOL_STRING : List Nat := [13, 10]

/-- `l.size() >= suf.size() && l.compare(l.size()-suf.size(), suf.size(), suf) == 0`. -/
def listEndsWith (l suf : List Nat) : Bool :=
  decide (suf.length ≤ l.length) && decide (l.drop (l.length - suf.length) = suf)

/-- `l.rfind(p, 0) == 0`: `l` starts with `p`. -/
def listStartsWith (l p : List Nat) : Bool :=
  decide (l.take p.length = p)

/-- The read loop of `TinySA::ConverseString` (TinySA.cpp lines 191-213):
accumulate one byte per iteration; after `MAX_RESPONSE_SIZE` is exceeded stop
with a too-long error; stop successfully when the trailer is a suffix of the
accumulated response.  Returns (accumulated bytes, bytesRead, exit reason).
An exhausted event list means the device stays silent forever, which the loop
can only leave through the timeout. -/
def converseStringGo (maxSize : Nat) :
    List PollEvt → List Nat → Nat → List Nat × Nat × ConvExit
  | [], result, n => (result, n, .timeout)
  | PollEvt.expire :: _, result, n => (result, n, .timeout)
  | PollEvt.byte b :: rest, result, n =>
      let result := result ++ [b]
      let n := n + 1
      if maxSize < n then (result, n, .tooLong)
      else if listEndsWith result TRAILER_STRING then (result, n, .trailerFound)
      else converseStringGo maxSize rest result n

/-- `TinySA::ConverseString` (TinySA.cpp lines 180-216): the returned string
is whatever the read loop accumulated, whichever way the loop exited. -/
def ConverseString (maxSize : Nat) (evts : List PollEvt) :
    List Nat × Nat × ConvExit :=
  converseStringGo maxSize evts [] 0

/-- `std::getline(ss, line)` splitting at LF (byte 10): returns the line (LF
consumed and excluded) and the rest of the stream.  A failed `getline` at end
of stream leaves the string cleared, modelled by the empty line. -/
def cppGetline : List Nat → List Nat × List Nat
  | [] => ([], [])
  | b :: rest =>
      if b = 10 then ([], rest)
      else
        let p := cppGetline rest
        (b :: p.1, p.2)

/-- Modelled from the spec: `RemoveCR` is defined in TinySA.h, which is not
among the sources; spec section 4.1 says the result line has its trailing
carriage-return characters (byte 13) stripped. -/
def RemoveCR (s : List Nat) : List Nat :=
  ((s.reverse.dropWhile (fun b => b == 13))).reverse

/-- Result of `TinySA::ConverseSingle`: the returned line, plus whether the
echo-mismatch warning was logged. -/
structure SingleResult where
  value : List Nat
  echoWarning : Bool
  deriving DecidableEq, Repr

/-- `TinySA::ConverseSingle` (TinySA.cpp lines 157-172), applied to the raw
byte string returned by `ConverseString`: read the first line (expected echo
of the command, warn on mismatch but continue), then return the second line,
both with trailing CRs removed. -/
def ConverseSingle (cmd raw : List Nat) : SingleResult :=
  let p1 := cppGetline raw
  let l1 := RemoveCR p1.1
  let warned := decide (l1 ≠ cmd)
  let p2 := cppGetline p1.2
  { value := RemoveCR p2.1, echoWarning := warned }

/-! ### ConverseBinary (TinySA.cpp, lines 226-298) -/

/-- Result of one payload-phase `ReadRawData(length, buf, cb)` call: the bytes
it delivered (written at the start of the buffer), and whether the timeout
deadline had passed when it returned. -/
structure PayEvt where
  bytes : List Nat
  expired : Bool
  deriving DecidableEq, Repr

/-- Why `ConverseBinary` stopped, and in which phase. -/
inductive BinExit where
  | timeoutHeader
  | tooLongHeader
  | timeoutPayload
  | timeoutFooter
  | tooLongFooter
  | done
  deriving DecidableEq, Repr

/-- Each payload-phase read writes at offset 0 of the buffer
(`data.begin().base()`), overwriting any earlier bytes; the buffer keeps its
`resize(length)` size. -/
def overwriteStart (buf bs : List Nat) : List Nat :=
  (bs ++ buf.drop bs.length).take buf.length

/-- Header phase of `ConverseBinary` (TinySA.cpp lines 244-275): count the
byte against `MAX_RESPONSE_SIZE` before appending; on finding the end-of-line
marker, check that the header starts with the command string (mismatch only
warns).  `Sum.inl (bytesRead, warning)` proceeds to the payload phase;
`Sum.inr` is an early exit. -/
def binHeaderGo (maxSize : Nat) (cmd : List Nat) :
    List PollEvt → List Nat → Nat → (Nat × Bool) ⊕ (Nat × BinExit)
  | [], _, n => Sum.inr (n, .timeoutHeader)
  | PollEvt.expire :: _, _, n => Sum.inr (n, .timeoutHeader)
  | PollEvt.byte b :: rest, result, n =>
      let n := n + 1
      if maxSize < n then Sum.inr (n, .tooLongHeader)
      else
        let result := result ++ [b]
        if listEndsWith result EOL_STRING then
          Sum.inl (n, decide ¬(listStartsWith result cmd = true))
        else binHeaderGo maxSize cmd rest result n

/-- Payload phase of `ConverseBinary` (TinySA.cpp lines 283-295): accumulate
`dataRead` across calls; each call writes at the start of the buffer; move to
the footer once `dataRead >= length`, else time out when the deadline has
passed.  `Sum.inl` proceeds to the footer phase. -/
def binPayloadGo (length : Nat) :
    List PayEvt → Nat → List Nat → (Nat × List Nat) ⊕ (Nat × List Nat × BinExit)
  | [], n, buf => Sum.inr (n, buf, .timeoutPayload)
  | e :: rest, n, buf =>
      let buf := overwriteStart buf e.bytes
      let n := n + e.bytes.length
      if length ≤ n then Sum.inl (n, buf)
      else if e.expired then Sum.inr (n, buf, .timeoutPayload)
      else binPayloadGo length rest n buf

/-- Footer phase of `ConverseBinary` (TinySA.cpp lines 244-281): `bytesRead`
continues from the header count; the accumulated string restarts empty; stop
on the trailer, the byte budget, or the timeout. -/
def binFooterGo (maxSize : Nat) :
    List PollEvt → List Nat → Nat → Nat × BinExit
  | [], _, n => (n, .timeoutFooter)
  | PollEvt.expire :: _, _, n => (n, .timeoutFooter)
  | PollEvt.byte b :: rest, result, n =>
      let n := n + 1
      if maxSize < n then (n, .tooLongFooter)
      else
        let result := result ++ [b]
        if listEndsWith result TRAILER_STRING then (n, .done)
        else binFooterGo maxSize rest result n

/-- The value `TinySA::ConverseBinary` produces: the returned byte count
`dataRead` (line 297), the payload buffer, whether the header-mismatch warning
was logged, and (ghost) which way the exchange ended. -/
structure BinResult where
  dataRead : Nat
  data : List Nat
  headerWarning : Bool
  exit : BinExit
  deriving DecidableEq, Repr

/-- `TinySA::ConverseBinary` (TinySA.cpp lines 226-298) over per-phase event
traces.  Whatever phase the loop stops in, the function returns `dataRead`. -/
def ConverseBinary (maxSize : Nat) (cmd : List Nat) (length : Nat)
    (hdr : List PollEvt) (pay : List PayEvt) (ftr : List PollEvt) : BinResult :=
  let buf := List.replicate length 0
  match binHeaderGo maxSize cmd hdr [] 0 with
  | Sum.inr pe => { dataRead := 0, data := buf, headerWarning := false, exit := pe.2 }
  | Sum.inl nw =>
    match binPayloadGo length pay 0 buf with
    | Sum.inr de => { dataRead := de.1, data := de.2.1, headerWarning := nw.2, exit := de.2.2 }
    | Sum.inl db =>
      let fe := binFooterGo maxSize ftr [] nw.1
      { dataRead := db.1, data := db.2, headerWarning := nw.2, exit := fe.2 }

/-! ## TinySA: AcquireData (TinySA.cpp, lines 393-474) -/

/-- Femtoseconds per second. -/
def FS_PER_SECOND : Int := 1000000000000000

/-- Log lines `AcquireData` can emit. -/
inductive LogMsg where
  | errInvalidByteCount (read expected : Nat)
  | warnInvalidOpen (b : Nat)
  | warnInvalidClose (b : Nat)
  | warnInvalidPointHeader (j : Nat) (b : Nat)
  deriving DecidableEq, Repr

/-- The waveform fields `AcquireData` stamps (TinySA.cpp lines 417-422). -/
structure UniformAnalogWaveform where
  m_timescale : Int
  m_triggerPhase : Int
  m_startTimestamp : Int
  m_startFemtoseconds : Int
  m_samples : List ℚ
  deriving DecidableEq, Repr

/-- Outcome of one `AcquireData` cycle: the return value, the waveform built
(if any), the SequenceSets appended to `m_pendingWaveforms` (each is the list
of waveforms of the enabled channels), and the log lines. -/
structure AcqResult where
  retval : Bool
  waveform : Option UniformAnalogWaveform
  published : List (List UniformAnalogWaveform)
  logs : List LogMsg
  deriving DecidableEq, Repr

/-- The body of `TinySA::AcquireData` after the `ConverseBinary` call
(TinySA.cpp lines 403-474), as a function of the byte count `read` and buffer
`data` that call produced.  `tstart` is the `GetTime()` wall-clock value
(embedded over `ℚ`; the float truncations involved are floors of nonnegative
values).  `chanEnabled` is `IsChannelEnabled(0)` for the single channel. -/
def AcquireDataFromRead (nsamples : Nat) (sweepStart sweepStop : Int)
    (offset : Int) (tstart : ℚ) (chanEnabled : Bool)
    (read : Nat) (data : List Nat) : AcqResult :=
  let toRead := nsamples * 3 + 2
  if read ≠ toRead then
    { retval := false
      waveform := none
      published := []
      logs := [.errInvalidByteCount read toRead] }
  else
    let stepsize := (sweepStop - sweepStart).tdiv (nsamples : Int)
    let fs := ⌊(tstart - (⌊tstart⌋ : ℚ)) * (FS_PER_SECOND : ℚ)⌋
    let openLogs :=
      if data.getD 0 0 ≠ 123 then [LogMsg.warnInvalidOpen (data.getD 0 0)] else []
    let closeLogs :=
      if data.getD (toRead - 1) 0 ≠ 125 then
        [LogMsg.warnInvalidClose (data.getD (toRead - 1) 0)]
      else []
    let sampleLogs := (List.range nsamples).filterMap (fun j =>
      if data.getD (1 + 3 * j) 0 ≠ 120 then
        some (LogMsg.warnInvalidPointHeader j (data.getD (1 + 3 * j) 0))
      else none)
    let samples := (List.range nsamples).map (fun j =>
      decodeSample (data.getD (3 + 3 * j) 0) (data.getD (2 + 3 * j) 0) offset)
    let cap : UniformAnalogWaveform :=
      { m_timescale := stepsize
        m_triggerPhase := sweepStart
        m_startTimestamp := ⌊tstart⌋
        m_startFemtoseconds := fs
        m_samples := samples }
    { retval := true
      waveform := some cap
      published := [if chanEnabled then [cap] else []]
      logs := openLogs ++ closeLogs ++ sampleLogs }

/-- Bytes of a Lean string (ASCII command strings). -/
def stringBytes (s : String) : List Nat := s.toList.map Char.toNat

/-- The `scanraw` command string built at TinySA.cpp line 398. -/
def scanrawCommand (start stop : Int) (n : Nat) : List Nat :=
  stringBytes ("scanraw " ++ toString start ++ " " ++ toString stop ++ " " ++ toString n)

/-- `TinySA::AcquireData` (TinySA.cpp lines 393-474): request `3*N + 2` bytes
through `ConverseBinary` and decode.  Also returns the `ConverseBinary`
result for observability. -/
def AcquireData (maxSize : Nat) (nsamples : Nat) (sweepStart sweepStop : Int)
    (offset : Int) (tstart : ℚ) (chanEnabled : Bool)
    (hdr : List PollEvt) (pay : List PayEvt) (ftr : List PollEvt) :
    AcqResult × BinResult :=
  let toRead := nsamples * 3 + 2
  let br := ConverseBinary maxSize (scanrawCommand sweepStart sweepStop nsamples)
    toRead hdr pay ftr
  (AcquireDataFromRead nsamples sweepStart sweepStop offset tstart chanEnabled
    br.dataRead br.data, br)

/-! ## Helper lemmas -/

/-- Every `refStep` preserves the invariant that the channel is on exactly
when the reference count is positive. -/
theorem refStep_enabled_inv (s : ChannelState) (op : RefOp)
    (h : s.enabled = decide (0 < s.m_refcount)) :
    (refStep s op).enabled = decide (0 < (refStep s op).m_refcount) := by
  obtain ⟨m, e⟩ := s
  simp only at h
  cases op with
  | addRef =>
      cases m with
      | zero => simp [refStep, AddRef]
      | succ k =>
          simp only [refStep, AddRef, Nat.succ_ne_zero, if_false]
          simp at h ⊢
          exact h
  | release =>
      cases m with
      | zero => simpa [refStep, Release] using h
      | succ k =>
          cases k with
          | zero => simp [refStep, Release]
          | succ k2 =>
              simp only [refStep, Release, Nat.succ_ne_zero, if_false]
              simp at h ⊢
              exact h

/-- The on/off invariant is preserved by any call sequence. -/
theorem runRefOps_enabled_inv (ops : List RefOp) :
    ∀ s : ChannelState, s.enabled = decide (0 < s.m_refcount) →
      (runRefOps s ops).enabled = decide (0 < (runRefOps s ops).m_refcount) := by
  induction ops with
  | nil => intro s h; simpa [runRefOps] using h
  | cons op rest ih =>
      intro s h
      have hstep := refStep_enabled_inv s op h
      simpa [runRefOps, List.foldl_cons] using ih (refStep s op) hstep

/-- When no `Release` ever arrives at a zero count, the final reference count
plus the number of `Release`s equals the initial count plus the number of
`AddRef`s (equivalently, count = initial + AddRefs − Releases). -/
theorem runRefOps_count_of_balanced (ops : List RefOp) :
    ∀ (c : Nat) (e : Bool), balancedFrom c ops = true →
      (runRefOps ⟨c, e⟩ ops).m_refcount + countReleases ops =
        c + countAddRefs ops := by
  induction ops with
  | nil => intro c e _; simp [runRefOps, countAddRefs, countReleases]
  | cons op rest ih =>
      intro c e hbal
      cases op with
      | addRef =>
          have hbal' : balancedFrom (c + 1) rest = true := by
            simpa [balancedFrom] using hbal
          have := ih (c + 1) (if c = 0 then true else e) hbal'
          simp only [runRefOps, List.foldl_cons, refStep, AddRef] at *
          simp only [countAddRefs, countReleases]
          omega
      | release =>
          simp only [balancedFrom, Bool.and_eq_true, decide_eq_true_eq] at hbal
          obtain ⟨hc, hbal'⟩ := hbal
          obtain ⟨k, rfl⟩ : ∃ k, c = k + 1 := ⟨c - 1, by omega⟩
          have := ih k (if k = 0 then false else e) (by simpa using hbal')
          simp only [runRefOps, List.foldl_cons, refStep, Release,
            Nat.succ_ne_zero, if_false, Nat.add_sub_cancel] at *
          simp only [countAddRefs, countReleases]
          omega

/-- Element `j < n` of `(List.range n).map f`. -/
theorem getD_map_range (n j : Nat) (f : Nat → ℚ) (h : j < n) :
    ((List.range n).map f).getD j 0 = f j := by
  rw [List.getD_eq_getElem?_getD, List.getElem?_map, List.getElem?_range h]
  rfl

/-- `cppGetline` on a stream whose first line (LF-free) ends at an explicit
LF byte returns that line and the remainder. -/
theorem cppGetline_append (l r : List Nat) (hl : 10 ∉ l) :
    cppGetline (l ++ 10 :: r) = (l, r) := by
  induction l with
  | nil => simp [cppGetline]
  | cons b bs ih =>
      have hb : ¬ b = 10 := fun h => hl (by simp [h])
      have hbs : 10 ∉ bs := fun h => hl (List.mem_cons_of_mem _ h)
      simp [cppGetline, hb, ih hbs]

/-- A string-conversation read loop that stops on the byte budget stops with
exactly `maxSize + 1` bytes read, all of them in the returned string. -/
theorem converseStringGo_tooLong (maxSize : Nat) :
    ∀ (evts : List PollEvt) (res : List Nat) (n : Nat),
      res.length = n → n ≤ maxSize →
      (converseStringGo maxSize evts res n).2.2 = ConvExit.tooLong →
      (converseStringGo maxSize evts res n).2.1 = maxSize + 1 ∧
      (converseStringGo maxSize evts res n).1.length = maxSize + 1 := by
  intro evts
  induction evts with
  | nil =>
      intro res n _ _ h
      simp [converseStringGo] at h
  | cons e rest ih =>
      intro res n hlen hle h
      cases e with
      | expire => simp [converseStringGo] at h
      | byte b =>
          by_cases hb : maxSize < n + 1
          · have hn : n = maxSize := by omega
            subst hn
            refine ⟨?_, ?_⟩ <;> simp [converseStringGo, hb, hlen]
          · by_cases ht : listEndsWith (res ++ [b]) TRAILER_STRING = true
            · simp [converseStringGo, hb, ht] at h
            · have hrec := ih (res ++ [b]) (n + 1) (by simp [hlen]) (by omega)
              simp only [converseStringGo, if_neg hb, if_neg ht] at h ⊢
              exact hrec h

/-- `binHeaderGo` can exit early only through the header timeout or the
header byte-budget overrun. -/
theorem binHeaderGo_inr_exit (maxSize : Nat) (cmd : List Nat) :
    ∀ (hdr : List PollEvt) (res : List Nat) (n : Nat) (pe : Nat × BinExit),
      binHeaderGo maxSize cmd hdr res n = Sum.inr pe →
      pe.2 = BinExit.timeoutHeader ∨ pe.2 = BinExit.tooLongHeader := by
  intro hdr
  induction hdr with
  | nil =>
      intro res n pe h
      cases h
      simp
  | cons e rest ih =>
      intro res n pe h
      cases e with
      | expire =>
          cases h
          simp
      | byte b =>
          simp only [binHeaderGo] at h
          split at h
          · cases h; simp
          · split at h
            · cases h
            · exact ih _ _ _ h

/-- `binPayloadGo` can exit early only through the payload timeout. -/
theorem binPayloadGo_inr_exit (length : Nat) :
    ∀ (pay : List PayEvt) (n : Nat) (buf : List Nat) (de : Nat × List Nat × BinExit),
      binPayloadGo length pay n buf = Sum.inr de →
      de.2.2 = BinExit.timeoutPayload := by
  intro pay
  induction pay with
  | nil =>
      intro n buf de h
      cases h
      rfl
  | cons e rest ih =>
      intro n buf de h
      simp only [binPayloadGo] at h
      split at h
      · cases h
      · split at h
        · cases h; rfl
        · exact ih _ _ _ h

/-- When `binPayloadGo` proceeds to the footer, the accumulated `dataRead`
has reached the requested length. -/
theorem binPayloadGo_inl_length (length : Nat) :
    ∀ (pay : List PayEvt) (n : Nat) (buf : List Nat) (db : Nat × List Nat),
      binPayloadGo length pay n buf = Sum.inl db → length ≤ db.1 := by
  intro pay
  induction pay with
  | nil =>
      intro n buf db h
      cases h
  | cons e rest ih =>
      intro n buf db h
      simp only [binPayloadGo] at h
      split at h
      · next hle =>
          cases h
          exact hle
      · split at h
        · cases h
        · exact ih _ _ _ h

/-- `binFooterGo` can only end in the footer timeout, the footer byte-budget
overrun, or the trailer being found. -/
theorem binFooterGo_exit (maxSize : Nat) :
    ∀ (ftr : List PollEvt) (res : List Nat) (n : Nat),
      (binFooterGo maxSize ftr res n).2 = BinExit.timeoutFooter ∨
      (binFooterGo maxSize ftr res n).2 = BinExit.tooLongFooter ∨
      (binFooterGo maxSize ftr res n).2 = BinExit.done := by
  intro ftr
  induction ftr with
  | nil => intro res n; simp [binFooterGo]
  | cons e rest ih =>
      intro res n
      cases e with
      | expire => simp [binFooterGo]
      | byte b =>
          simp only [binFooterGo]
          split
          · simp
          · split
            · simp
            · exact ih _ _

/-! ## Claim theorems -/

/-- C4 counterexample: the claim says all four sentinel (non-percentage)
download-state codes are negative, but `DOWNLOAD_STARTED` has value `0`,
which is not negative and coincides with the 0% percentage. -/
theorem C4_counterexample :
    downloadStateValue DownloadState.DOWNLOAD_STARTED = 0 ∧
    ¬ downloadStateValue DownloadState.DOWNLOAD_STARTED < 0 := by
  decide

/-- C4 (amended): `GetDownloadState()` codes are `-3` (suppress progress UI),
`-2` (none pending), `-1` (queued), `0` (download started) and `100`
(finished); exactly the first three sentinels are negative, so only they are
distinguishable from percentages by sign — `DOWNLOAD_STARTED` (0) and
`DOWNLOAD_FINISHED` (100) lie inside the percentage range [0,100]. -/
theorem C4_amended :
    downloadStateValue DownloadState.DOWNLOAD_PROGRESS_DISABLED = -3 ∧
    downloadStateValue DownloadState.DOWNLOAD_NONE = -2 ∧
    downloadStateValue DownloadState.DOWNLOAD_WAITING = -1 ∧
    downloadStateValue DownloadState.DOWNLOAD_STARTED = 0 ∧
    downloadStateValue DownloadState.DOWNLOAD_FINISHED = 100 ∧
    (∀ s : DownloadState, downloadStateValue s < 0 ↔
      (s = DownloadState.DOWNLOAD_PROGRESS_DISABLED ∨
       s = DownloadState.DOWNLOAD_NONE ∨
       s = DownloadState.DOWNLOAD_WAITING)) ∧
    (∀ s : DownloadState, 0 ≤ downloadStateValue s ∨ -3 ≤ downloadStateValue s) ∧
    (∀ s : DownloadState, downloadStateValue s ≤ 100) := by
  refine ⟨rfl, rfl, rfl, rfl, rfl, fun s => ?_, fun s => ?_, fun s => ?_⟩ <;>
    cases s <;> decide

/-- C9 counterexample: after construction with model `TINY_SA`, every
model-specific parameter equals exactly the value its own case branch assigns
(`m_rbwMin = 1`, `m_rbwMax = 600000`, offset 128) — nothing is overwritten by
default-case values, contradicting the claim that the parameter set differs
from the case branch's assignments. -/
theorem C9_counterexample :
    modelParams Model.TINY_SA =
      { m_freqMin := 0
        m_freqMax := 6000000000
        m_rbwMin := 1
        m_rbwMax := 600000
        m_modelDbmOffset := 128 } ∧
    (modelParams Model.TINY_SA).m_rbwMin = 1 ∧
    (modelParams Model.TINY_SA).m_rbwMax = 600000 := by
  decide

/-- C9 (amended): the `TINY_SA` branch of the constructor's switch does fall
through into the `default:` case without a `break`, but that case is empty
(`break` only), so no value is overwritten: the parameter set after
construction with `TINY_SA` is exactly what the case branch assigns, and the
`default` case is the identity on the parameters. -/
theorem C9_amended :
    (∀ p : TinySAParams, switchDefaultCase p = p) ∧
    modelParams Model.TINY_SA =
      switchDefaultCase
        { m_freqMin := 0
          m_freqMax := 6000000000
          m_rbwMin := 1
          m_rbwMax := 600000
          m_modelDbmOffset := 128 } ∧
    (modelParams Model.TINY_SA).m_rbwMin = 1 ∧
    (modelParams Model.TINY_SA).m_rbwMax = 600000 ∧
    (modelParams Model.TINY_SA).m_modelDbmOffset = 128 := by
  exact ⟨fun p => rfl, rfl, rfl, rfl, rfl⟩

/-- C3 counterexample: for the call sequence [Release, AddRef] the channel
ends enabled (the leading `Release` at count zero is a no-op, the `AddRef`
brings the count to one), yet the number of `AddRef` calls (1) does not
exceed the number of `Release` calls (1), refuting the claimed "enabled iff
#AddRef > #Release". -/
theorem C3_counterexample :
    (runRefOps initChannel [RefOp.release, RefOp.addRef]).enabled = true ∧
    ¬ countReleases [RefOp.release, RefOp.addRef] <
        countAddRefs [RefOp.release, RefOp.addRef] := by
  decide

/-- C3 (amended): `Release` at a zero count is a no-op and the count never
goes below zero; the channel is enabled iff the (clamped) reference count is
positive; and for call sequences in which no `Release` ever arrives while the
count is zero (`balancedFrom 0`), the channel is enabled iff the number of
`AddRef` calls exceeds the number of `Release` calls. -/
theorem C3_amended (ops : List RefOp) (hbal : balancedFrom 0 ops = true) :
    ((runRefOps initChannel ops).enabled = true ↔
      0 < (runRefOps initChannel ops).m_refcount) ∧
    ((runRefOps initChannel ops).enabled = true ↔
      countReleases ops < countAddRefs ops) ∧
    (∀ s : ChannelState, s.m_refcount = 0 → Release s = s) := by
  have hinv := runRefOps_enabled_inv ops initChannel (by simp [initChannel])
  have hcnt := runRefOps_count_of_balanced ops 0 false hbal
  have hiff1 : (runRefOps initChannel ops).enabled = true ↔
      0 < (runRefOps initChannel ops).m_refcount := by
    rw [hinv]; simp
  refine ⟨hiff1, ?_, fun s hs => by simp [Release, hs]⟩
  rw [hiff1]
  have : (runRefOps initChannel ops).m_refcount + countReleases ops =
      countAddRefs ops := by simpa [initChannel] using hcnt
  omega

/-- C3 witness: the amended theorem applied to the concrete balanced sequence
[AddRef, Release, AddRef]. -/
theorem C3_witness :
    balancedFrom 0 [RefOp.addRef, RefOp.release, RefOp.addRef] = true ∧
    (((runRefOps initChannel [RefOp.addRef, RefOp.release, RefOp.addRef]).enabled = true ↔
        0 < (runRefOps initChannel [RefOp.addRef, RefOp.release, RefOp.addRef]).m_refcount) ∧
      ((runRefOps initChannel [RefOp.addRef, RefOp.release, RefOp.addRef]).enabled = true ↔
        countReleases [RefOp.addRef, RefOp.release, RefOp.addRef] <
          countAddRefs [RefOp.addRef, RefOp.release, RefOp.addRef]) ∧
      (∀ s : ChannelState, s.m_refcount = 0 → Release s = s)) :=
  ⟨by decide, C3_amended [RefOp.addRef, RefOp.release, RefOp.addRef] (by decide)⟩

/-- C10: `SetResolutionBandwidth` sends to the device exactly the requested
value clamped into the model limits, `min(m_rbwMax, max(m_rbwMin, rbw))`;
whenever the limits are consistent (`m_rbwMin ≤ m_rbwMax`) the sent value
lies in `[m_rbwMin, m_rbwMax]`; and the stored `m_rbw` is the value the
device reports back. -/
theorem C10_rbw_clamp (p : TinySAParams) (rbw deviceReported : Int)
    (hp : p.m_rbwMin ≤ p.m_rbwMax) :
    (SetResolutionBandwidth p rbw deviceReported).1 =
      min p.m_rbwMax (max p.m_rbwMin rbw) ∧
    p.m_rbwMin ≤ (SetResolutionBandwidth p rbw deviceReported).1 ∧
    (SetResolutionBandwidth p rbw deviceReported).1 ≤ p.m_rbwMax ∧
    (SetResolutionBandwidth p rbw deviceReported).2 = deviceReported :=
  ⟨rfl, le_min hp (le_max_left _ _), min_le_left _ _, rfl⟩

/-- C10 witness: the theorem at the `TINY_SA` limits with an out-of-range
request of 999999999 Hz. -/
theorem C10_witness :
    (SetResolutionBandwidth (modelParams Model.TINY_SA) 999999999 5).1 =
      min (modelParams Model.TINY_SA).m_rbwMax
        (max (modelParams Model.TINY_SA).m_rbwMin 999999999) ∧
    (modelParams Model.TINY_SA).m_rbwMin ≤
      (SetResolutionBandwidth (modelParams Model.TINY_SA) 999999999 5).1 ∧
    (SetResolutionBandwidth (modelParams Model.TINY_SA) 999999999 5).1 ≤
      (modelParams Model.TINY_SA).m_rbwMax ∧
    (SetResolutionBandwidth (modelParams Model.TINY_SA) 999999999 5).2 = 5 :=
  C10_rbw_clamp (modelParams Model.TINY_SA) 999999999 5 (by decide)

/-- The failure branch of `AcquireData` (TinySA.cpp lines 403-407). -/
theorem acquireFromRead_fail (nsamples : Nat) (a b off : Int) (t : ℚ) (ce : Bool)
    (read : Nat) (data : List Nat) (h : ¬ read = nsamples * 3 + 2) :
    AcquireDataFromRead nsamples a b off t ce read data =
      { retval := false
        waveform := none
        published := []
        logs := [LogMsg.errInvalidByteCount read (nsamples * 3 + 2)] } := by
  simp [AcquireDataFromRead, h]

/-- `AcquireData` returns true exactly when the byte count matched. -/
theorem acquireFromRead_retval (nsamples : Nat) (a b off : Int) (t : ℚ) (ce : Bool)
    (read : Nat) (data : List Nat) :
    (AcquireDataFromRead nsamples a b off t ce read data).retval = true ↔
      read = nsamples * 3 + 2 := by
  by_cases h : read = nsamples * 3 + 2 <;> simp [AcquireDataFromRead, h]

/-- The waveform built by a full-length acquisition. -/
theorem acquireFromRead_waveform (nsamples : Nat) (a b off : Int) (t : ℚ)
    (ce : Bool) (data : List Nat) :
    (AcquireDataFromRead nsamples a b off t ce (nsamples * 3 + 2) data).waveform =
      some
        { m_timescale := (b - a).tdiv (nsamples : Int)
          m_triggerPhase := a
          m_startTimestamp := ⌊t⌋
          m_startFemtoseconds := ⌊(t - (⌊t⌋ : ℚ)) * (FS_PER_SECOND : ℚ)⌋
          m_samples := (List.range nsamples).map (fun j =>
            decodeSample (data.getD (3 + 3 * j) 0) (data.getD (2 + 3 * j) 0) off) } := by
  simp [AcquireDataFromRead]

/-- The shift by 8 in the source decode is multiplication by 256, so the
source decode equals the spec's decode formula. -/
theorem decodeSample_eq_formula (d2 d1 : Nat) (off : Int) :
    decodeSample d2 d1 off = specDecodeFormula d2 d1 off := by
  unfold decodeSample specDecodeFormula
  rw [Nat.shiftLeft_eq]

/-- The two budget-overrun exits of `ConverseBinary`: a header-phase overrun
returns zero payload bytes, while a footer-phase overrun returns a full
payload count (at least the requested length). -/
theorem ConverseBinary_budget_cases (maxSize : Nat) (cmd : List Nat)
    (length : Nat) (hdr : List PollEvt) (pay : List PayEvt) (ftr : List PollEvt) :
    ((ConverseBinary maxSize cmd length hdr pay ftr).exit = BinExit.tooLongHeader →
      (ConverseBinary maxSize cmd length hdr pay ftr).dataRead = 0) ∧
    ((ConverseBinary maxSize cmd length hdr pay ftr).exit = BinExit.tooLongFooter →
      length ≤ (ConverseBinary maxSize cmd length hdr pay ftr).dataRead) := by
  unfold ConverseBinary
  cases hh : binHeaderGo maxSize cmd hdr [] 0 with
  | inr pe =>
      have h2 := binHeaderGo_inr_exit maxSize cmd hdr [] 0 pe hh
      simp only [hh]
      constructor
      · intro _; trivial
      · intro h
        rcases h2 with h2 | h2 <;> rw [h] at h2 <;> exact absurd h2 (by decide)
  | inl nw =>
      simp only [hh]
      cases hp : binPayloadGo length pay 0 (List.replicate length 0) with
      | inr de =>
          have hex := binPayloadGo_inr_exit length pay 0 _ de hp
          simp only [hp]
          constructor <;> intro h <;> rw [hex] at h <;> exact absurd h (by decide)
      | inl db =>
          have hlen := binPayloadGo_inl_length length pay 0 _ db hp
          simp only [hp]
          constructor <;> intro h
          · exfalso
            rcases binFooterGo_exit maxSize ftr [] nw.1 with h2 | h2 | h2 <;>
              rw [h2] at h <;> exact absurd h (by decide)
          · exact hlen

/-- C5: for any command and any device response of at least two lines, the
single-line conversation returns the second line with its trailing
carriage-return bytes stripped, whatever the first (echo) line is; the
echo-mismatch warning is logged exactly when the CR-stripped first line
differs from the command, and it does not change the returned value. -/
theorem C5_returns_second_line (cmd l1 l2 rest : List Nat)
    (h1 : 10 ∉ l1) (h2 : 10 ∉ l2) :
    ConverseSingle cmd (l1 ++ 10 :: (l2 ++ 10 :: rest)) =
      { value := RemoveCR l2
        echoWarning := decide (¬ RemoveCR l1 = cmd) } := by
  unfold ConverseSingle
  rw [cppGetline_append _ _ h1]
  simp only
  rw [cppGetline_append _ _ h2]

/-- C5 witness: the theorem at command "version" and a mismatched echo line
"weird\r" followed by result line "blah\r"; the value is still the second
line, CR-stripped. -/
theorem C5_witness :
    ConverseSingle [118, 101, 114, 115, 105, 111, 110]
        ([119, 101, 105, 114, 100, 13] ++ 10 ::
          ([98, 108, 97, 104, 13] ++ 10 :: [99, 104, 62, 13, 10])) =
      { value := RemoveCR [98, 108, 97, 104, 13]
        echoWarning :=
          decide (¬ RemoveCR [119, 101, 105, 114, 100, 13] =
            [118, 101, 114, 115, 105, 111, 110]) } :=
  C5_returns_second_line [118, 101, 114, 115, 105, 111, 110]
    [119, 101, 105, 114, 100, 13] [98, 108, 97, 104, 13] [99, 104, 62, 13, 10]
    (by decide) (by decide)

/-- C6 counterexample: a binary exchange whose byte budget (8) is exceeded in
the footer phase, after a complete 5-byte payload.  Reading stops with the
length-exceeded error (`tooLongFooter`), but the call returns the full
requested count 5 — not a failure result — and the calling `AcquireData`
consequently returns true and publishes a SequenceSet. -/
theorem C6_counterexample :
    (AcquireData 8 1 0 1000 128 0 true ([13, 10].map PollEvt.byte)
        [⟨[123, 120, 0, 32, 125], false⟩]
        ([1, 1, 1, 1, 1, 1, 1].map PollEvt.byte)).2.exit = BinExit.tooLongFooter ∧
    (AcquireData 8 1 0 1000 128 0 true ([13, 10].map PollEvt.byte)
        [⟨[123, 120, 0, 32, 125], false⟩]
        ([1, 1, 1, 1, 1, 1, 1].map PollEvt.byte)).2.dataRead = 1 * 3 + 2 ∧
    (AcquireData 8 1 0 1000 128 0 true ([13, 10].map PollEvt.byte)
        [⟨[123, 120, 0, 32, 125], false⟩]
        ([1, 1, 1, 1, 1, 1, 1].map PollEvt.byte)).1.retval = true ∧
    (AcquireData 8 1 0 1000 128 0 true ([13, 10].map PollEvt.byte)
        [⟨[123, 120, 0, 32, 125], false⟩]
        ([1, 1, 1, 1, 1, 1, 1].map PollEvt.byte)).1.published ≠ [] := by
  refine ⟨by decide, by decide, by decide, by decide⟩

/-- C6 (amended): exceeding the byte budget stops reading and logs the
length-exceeded error, but the returned value is whatever was accumulated,
exactly as for a timeout: the line conversation returns the partial string of
`MAX_RESPONSE_SIZE + 1` bytes; a header-phase overrun of the binary
conversation returns a zero payload count (a failure at the caller); a
footer-phase overrun happens only after the payload is complete, so the call
returns the full requested count, which the caller cannot distinguish from
success. -/
theorem C6_amended (maxSize : Nat) (cmd : List Nat) (length : Nat)
    (evts : List PollEvt) (hdr : List PollEvt) (pay : List PayEvt)
    (ftr : List PollEvt) :
    ((ConverseString maxSize evts).2.2 = ConvExit.tooLong →
      (ConverseString maxSize evts).2.1 = maxSize + 1 ∧
      (ConverseString maxSize evts).1.length = maxSize + 1) ∧
    ((ConverseBinary maxSize cmd length hdr pay ftr).exit = BinExit.tooLongHeader →
      (ConverseBinary maxSize cmd length hdr pay ftr).dataRead = 0) ∧
    ((ConverseBinary maxSize cmd length hdr pay ftr).exit = BinExit.tooLongFooter →
      length ≤ (ConverseBinary maxSize cmd length hdr pay ftr).dataRead) :=
  ⟨fun h => converseStringGo_tooLong maxSize evts [] 0 rfl (Nat.zero_le _) h,
   (ConverseBinary_budget_cases maxSize cmd length hdr pay ftr).1,
   (ConverseBinary_budget_cases maxSize cmd length hdr pay ftr).2⟩

/-- C6 witness: the amended theorem applied to three concrete exchanges — a
line conversation overrunning a budget of 3, a binary footer overrun after a
full 3-byte payload, and a binary header overrun with budget 1. -/
theorem C6_witness :
    (ConverseString 3 ((stringBytes "abcdefgh").map PollEvt.byte)).2.1 = 3 + 1 ∧
    (ConverseString 3 ((stringBytes "abcdefgh").map PollEvt.byte)).1.length = 3 + 1 ∧
    3 ≤ (ConverseBinary 3 [] 3 ([13, 10].map PollEvt.byte) [⟨[7, 8, 9], false⟩]
          ([1, 1].map PollEvt.byte)).dataRead ∧
    (ConverseBinary 1 [] 3 ([13, 10].map PollEvt.byte) [] []).dataRead = 0 :=
  have hs := (C6_amended 3 [] 3 ((stringBytes "abcdefgh").map PollEvt.byte)
    ([13, 10].map PollEvt.byte) [⟨[7, 8, 9], false⟩]
    ([1, 1].map PollEvt.byte)).1 (by decide)
  have hf := (C6_amended 3 [] 3 ((stringBytes "abcdefgh").map PollEvt.byte)
    ([13, 10].map PollEvt.byte) [⟨[7, 8, 9], false⟩]
    ([1, 1].map PollEvt.byte)).2.2 (by decide)
  have hh := (C6_amended 1 [] 3 [] ([13, 10].map PollEvt.byte) [] []).2.1 (by decide)
  ⟨hs.1, hs.2, hf, hh⟩

/-- C1: for every sample count `N` and every transport behaviour, the
acquisition requests `3*N + 2` bytes; if `ConverseBinary` returns any other
count, `AcquireData` returns false, builds no waveform, publishes no
SequenceSet, and logs the invalid-byte-count error; conversely a true return
implies exactly `3*N + 2` bytes were read. -/
theorem C1_exact_length_or_failure (maxSize nsamples : Nat)
    (sweepStart sweepStop offset : Int) (tstart : ℚ) (chanEnabled : Bool)
    (hdr : List PollEvt) (pay : List PayEvt) (ftr : List PollEvt) :
    ((AcquireData maxSize nsamples sweepStart sweepStop offset tstart chanEnabled
        hdr pay ftr).2.dataRead ≠ nsamples * 3 + 2 →
      (AcquireData maxSize nsamples sweepStart sweepStop offset tstart chanEnabled
        hdr pay ftr).1.retval = false ∧
      (AcquireData maxSize nsamples sweepStart sweepStop offset tstart chanEnabled
        hdr pay ftr).1.waveform = none ∧
      (AcquireData maxSize nsamples sweepStart sweepStop offset tstart chanEnabled
        hdr pay ftr).1.published = [] ∧
      (AcquireData maxSize nsamples sweepStart sweepStop offset tstart chanEnabled
        hdr pay ftr).1.logs =
        [LogMsg.errInvalidByteCount
          (AcquireData maxSize nsamples sweepStart sweepStop offset tstart chanEnabled
            hdr pay ftr).2.dataRead (nsamples * 3 + 2)]) ∧
    ((AcquireData maxSize nsamples sweepStart sweepStop offset tstart chanEnabled
        hdr pay ftr).1.retval = true →
      (AcquireData maxSize nsamples sweepStart sweepStop offset tstart chanEnabled
        hdr pay ftr).2.dataRead = nsamples * 3 + 2) := by
  have h1 : (AcquireData maxSize nsamples sweepStart sweepStop offset tstart
      chanEnabled hdr pay ftr).1 =
      AcquireDataFromRead nsamples sweepStart sweepStop offset tstart chanEnabled
        ((AcquireData maxSize nsamples sweepStart sweepStop offset tstart
          chanEnabled hdr pay ftr).2.dataRead)
        ((AcquireData maxSize nsamples sweepStart sweepStop offset tstart
          chanEnabled hdr pay ftr).2.data) := rfl
  constructor
  · intro hne
    rw [h1, acquireFromRead_fail _ _ _ _ _ _ _ _ hne]
    exact ⟨rfl, rfl, rfl, rfl⟩
  · intro hret
    exact (acquireFromRead_retval _ _ _ _ _ _ _ _).mp (h1 ▸ hret)

/-- C1 witness: a trace delivering only 2 of the 5 requested payload bytes
before timing out; the acquisition fails with the logged error and publishes
nothing. -/
theorem C1_witness :
    (AcquireData 1000 1 0 1000 128 0 true ([13, 10].map PollEvt.byte)
        [⟨[1, 2], true⟩] []).1.retval = false ∧
    (AcquireData 1000 1 0 1000 128 0 true ([13, 10].map PollEvt.byte)
        [⟨[1, 2], true⟩] []).1.waveform = none ∧
    (AcquireData 1000 1 0 1000 128 0 true ([13, 10].map PollEvt.byte)
        [⟨[1, 2], true⟩] []).1.published = [] ∧
    (AcquireData 1000 1 0 1000 128 0 true ([13, 10].map PollEvt.byte)
        [⟨[1, 2], true⟩] []).1.logs =
      [LogMsg.errInvalidByteCount
        (AcquireData 1000 1 0 1000 128 0 true ([13, 10].map PollEvt.byte)
          [⟨[1, 2], true⟩] []).2.dataRead (1 * 3 + 2)] :=
  (C1_exact_length_or_failure 1000 1 0 1000 128 0 true ([13, 10].map PollEvt.byte)
    [⟨[1, 2], true⟩] []).1 (by decide)

/-- C2: for every full-length acquisition, sample `j` of the produced
waveform equals the spec formula `((data2 << 8) + data1) / 32 − offset`
applied to the two payload bytes of sample `j` (`data1 = data[2+3j]` low,
`data2 = data[3+3j]` high) and the model's offset; the `TINY_SA` model's
offset is 128 and the `TINY_SA_ULTRA` model's offset is 174. -/
theorem C2_decode (nsamples : Nat) (sweepStart sweepStop : Int) (m : Model)
    (tstart : ℚ) (chanEnabled : Bool) (data : List Nat) (j : Nat)
    (hj : j < nsamples) :
    ∃ cap : UniformAnalogWaveform,
      (AcquireDataFromRead nsamples sweepStart sweepStop
          (modelParams m).m_modelDbmOffset tstart chanEnabled
          (nsamples * 3 + 2) data).waveform = some cap ∧
      cap.m_samples.getD j 0 =
        specDecodeFormula (data.getD (3 + 3 * j) 0) (data.getD (2 + 3 * j) 0)
          (modelParams m).m_modelDbmOffset ∧
      (modelParams Model.TINY_SA).m_modelDbmOffset = 128 ∧
      (modelParams Model.TINY_SA_ULTRA).m_modelDbmOffset = 174 := by
  refine ⟨_, acquireFromRead_waveform nsamples sweepStart sweepStop
    (modelParams m).m_modelDbmOffset tstart chanEnabled data, ?_, rfl, rfl⟩
  rw [getD_map_range nsamples j _ hj, decodeSample_eq_formula]

/-- C2 witness: the theorem at a one-sample payload `{ x 00 20 }` for the
`TINY_SA` model: the sample decodes to `(0x2000 / 32) − 128 = 128` dBm. -/
theorem C2_witness :
    ∃ cap : UniformAnalogWaveform,
      (AcquireDataFromRead 1 0 1000
          (modelParams Model.TINY_SA).m_modelDbmOffset 0 true
          (1 * 3 + 2) [123, 120, 0, 32, 125]).waveform = some cap ∧
      cap.m_samples.getD 0 0 =
        specDecodeFormula ([123, 120, 0, 32, 125].getD (3 + 3 * 0) 0)
          ([123, 120, 0, 32, 125].getD (2 + 3 * 0) 0)
          (modelParams Model.TINY_SA).m_modelDbmOffset ∧
      (modelParams Model.TINY_SA).m_modelDbmOffset = 128 ∧
      (modelParams Model.TINY_SA_ULTRA).m_modelDbmOffset = 174 :=
  C2_decode 1 0 1000 Model.TINY_SA 0 true [123, 120, 0, 32, 125] 0 (by decide)

/-- C7: on a fully-read payload the structural-marker checks are non-fatal:
the acquisition returns true, decodes all `N` samples and publishes the
waveform regardless of the marker bytes; a wrong opening bracket, closing
bracket, or per-sample header byte each only adds a logged warning. -/
theorem C7_markers_nonfatal (nsamples : Nat) (sweepStart sweepStop offset : Int)
    (tstart : ℚ) (data : List Nat) :
    (AcquireDataFromRead nsamples sweepStart sweepStop offset tstart true
        (nsamples * 3 + 2) data).retval = true ∧
    (∃ cap : UniformAnalogWaveform,
      (AcquireDataFromRead nsamples sweepStart sweepStop offset tstart true
          (nsamples * 3 + 2) data).waveform = some cap ∧
      cap.m_samples.length = nsamples ∧
      (AcquireDataFromRead nsamples sweepStart sweepStop offset tstart true
          (nsamples * 3 + 2) data).published = [[cap]]) ∧
    (data.getD 0 0 ≠ 123 →
      LogMsg.warnInvalidOpen (data.getD 0 0) ∈
        (AcquireDataFromRead nsamples sweepStart sweepStop offset tstart true
          (nsamples * 3 + 2) data).logs) ∧
    (data.getD (nsamples * 3 + 1) 0 ≠ 125 →
      LogMsg.warnInvalidClose (data.getD (nsamples * 3 + 1) 0) ∈
        (AcquireDataFromRead nsamples sweepStart sweepStop offset tstart true
          (nsamples * 3 + 2) data).logs) ∧
    (∀ j : Nat, j < nsamples → data.getD (1 + 3 * j) 0 ≠ 120 →
      LogMsg.warnInvalidPointHeader j (data.getD (1 + 3 * j) 0) ∈
        (AcquireDataFromRead nsamples sweepStart sweepStop offset tstart true
          (nsamples * 3 + 2) data).logs) := by
  have hm1 : nsamples * 3 + 2 - 1 = nsamples * 3 + 1 := by omega
  simp only [AcquireDataFromRead, ne_eq, not_true_eq_false, if_false, hm1]
  refine ⟨trivial, ⟨_, rfl, by simp, by simp⟩, ?_, ?_, ?_⟩
  · intro h
    simp only [List.getD_eq_getElem?_getD] at h
    simp [h]
  · intro h
    simp only [List.getD_eq_getElem?_getD] at h
    simp [h]
  · intro j hj h
    refine List.mem_append.mpr (Or.inr ?_)
    refine List.mem_filterMap.mpr ⟨j, List.mem_range.mpr hj, ?_⟩
    simp only [List.getD_eq_getElem?_getD] at h
    simp [h]

/-- C7 witness: a one-sample payload `[0, 0, 5, 6, 0]` with a wrong opening
byte, wrong per-sample marker and wrong closing byte still succeeds, and all
three warnings are logged. -/
theorem C7_witness :
    (AcquireDataFromRead 1 0 1000 128 0 true 5 [0, 0, 5, 6, 0]).retval = true ∧
    LogMsg.warnInvalidOpen 0 ∈
      (AcquireDataFromRead 1 0 1000 128 0 true 5 [0, 0, 5, 6, 0]).logs ∧
    LogMsg.warnInvalidClose 0 ∈
      (AcquireDataFromRead 1 0 1000 128 0 true 5 [0, 0, 5, 6, 0]).logs ∧
    LogMsg.warnInvalidPointHeader 0 0 ∈
      (AcquireDataFromRead 1 0 1000 128 0 true 5 [0, 0, 5, 6, 0]).logs :=
  have h := C7_markers_nonfatal 1 0 1000 128 0 [0, 0, 5, 6, 0]
  ⟨h.1, h.2.2.1 (by decide), h.2.2.2.1 (by decide), h.2.2.2.2 0 (by decide) (by decide)⟩

/-- C8: every waveform produced by a successful acquisition is stamped with
`m_timescale = (stop − start) / N` (C++ truncating integer division),
`m_triggerPhase` = the sweep start, `m_startTimestamp` = the whole seconds of
the wall clock, and `m_startFemtoseconds` = the sub-second remainder scaled
to femtoseconds, which lies in `[0, FS_PER_SECOND)`; it carries `N` samples. -/
theorem C8_waveform_stamps (nsamples : Nat) (sweepStart sweepStop offset : Int)
    (tstart : ℚ) (chanEnabled : Bool) (read : Nat) (data : List Nat)
    (cap : UniformAnalogWaveform)
    (hcap : (AcquireDataFromRead nsamples sweepStart sweepStop offset tstart
        chanEnabled read data).waveform = some cap) :
    cap.m_timescale = (sweepStop - sweepStart).tdiv (nsamples : Int) ∧
    cap.m_triggerPhase = sweepStart ∧
    cap.m_startTimestamp = ⌊tstart⌋ ∧
    cap.m_startFemtoseconds = ⌊(tstart - (⌊tstart⌋ : ℚ)) * (FS_PER_SECOND : ℚ)⌋ ∧
    0 ≤ cap.m_startFemtoseconds ∧
    cap.m_startFemtoseconds < FS_PER_SECOND ∧
    cap.m_samples.length = nsamples := by
  by_cases h : read = nsamples * 3 + 2
  · subst h
    rw [acquireFromRead_waveform] at hcap
    obtain rfl : cap = _ := (Option.some.inj hcap).symm
    have hfl : (⌊tstart⌋ : ℚ) ≤ tstart := Int.floor_le tstart
    have hfu : tstart < ⌊tstart⌋ + 1 := Int.lt_floor_add_one tstart
    have hC : (0 : ℚ) < (FS_PER_SECOND : ℚ) := by norm_num [FS_PER_SECOND]
    refine ⟨rfl, rfl, rfl, rfl, ?_, ?_, by simp⟩
    · exact Int.floor_nonneg.mpr (mul_nonneg (by linarith) (le_of_lt hC))
    · apply Int.floor_lt.mpr
      have hlt : tstart - (⌊tstart⌋ : ℚ) < 1 := by linarith
      calc (tstart - (⌊tstart⌋ : ℚ)) * (FS_PER_SECOND : ℚ)
          < 1 * (FS_PER_SECOND : ℚ) := by
            exact mul_lt_mul_of_pos_right hlt hC
        _ = ((FS_PER_SECOND : Int) : ℚ) := by norm_num
  · rw [acquireFromRead_fail _ _ _ _ _ _ _ _ h] at hcap
    cases hcap

/-- C8 witness: the theorem at a concrete successful acquisition — one sample
over sweep [0, 1000] at wall clock 3/2 s, with the hypothesis discharged by
the computed waveform of that acquisition. -/
theorem C8_witness :
    (({ m_timescale := ((1000 : Int) - 0).tdiv ((1 : Nat) : Int), m_triggerPhase := 0, m_startTimestamp := ⌊(3 / 2 : ℚ)⌋, m_startFemtoseconds := ⌊((3 / 2 : ℚ) - ((⌊(3 / 2 : ℚ)⌋ : Int) : ℚ)) * ((FS_PER_SECOND : Int) : ℚ)⌋, m_samples := (List.range 1).map (fun j => decodeSample ([123, 120, 0, 32, 125].getD (3 + 3 * j) 0) ([123, 120, 0, 32, 125].getD (2 + 3 * j) 0) 128) } : UniformAnalogWaveform).m_timescale =
      ((1000 : Int) - 0).tdiv ((1 : Nat) : Int)) ∧
    (({ m_timescale := ((1000 : Int) - 0).tdiv ((1 : Nat) : Int), m_triggerPhase := 0, m_startTimestamp := ⌊(3 / 2 : ℚ)⌋, m_startFemtoseconds := ⌊((3 / 2 : ℚ) - ((⌊(3 / 2 : ℚ)⌋ : Int) : ℚ)) * ((FS_PER_SECOND : Int) : ℚ)⌋, m_samples := (List.range 1).map (fun j => decodeSample ([123, 120, 0, 32, 125].getD (3 + 3 * j) 0) ([123, 120, 0, 32, 125].getD (2 + 3 * j) 0) 128) } : UniformAnalogWaveform).m_triggerPhase = 0) ∧
    (({ m_timescale := ((1000 : Int) - 0).tdiv ((1 : Nat) : Int), m_triggerPhase := 0, m_startTimestamp := ⌊(3 / 2 : ℚ)⌋, m_startFemtoseconds := ⌊((3 / 2 : ℚ) - ((⌊(3 / 2 : ℚ)⌋ : Int) : ℚ)) * ((FS_PER_SECOND : Int) : ℚ)⌋, m_samples := (List.range 1).map (fun j => decodeSample ([123, 120, 0, 32, 125].getD (3 + 3 * j) 0) ([123, 120, 0, 32, 125].getD (2 + 3 * j) 0) 128) } : UniformAnalogWaveform).m_startTimestamp = ⌊(3 / 2 : ℚ)⌋) ∧
    (({ m_timescale := ((1000 : Int) - 0).tdiv ((1 : Nat) : Int), m_triggerPhase := 0, m_startTimestamp := ⌊(3 / 2 : ℚ)⌋, m_startFemtoseconds := ⌊((3 / 2 : ℚ) - ((⌊(3 / 2 : ℚ)⌋ : Int) : ℚ)) * ((FS_PER_SECOND : Int) : ℚ)⌋, m_samples := (List.range 1).map (fun j => decodeSample ([123, 120, 0, 32, 125].getD (3 + 3 * j) 0) ([123, 120, 0, 32, 125].getD (2 + 3 * j) 0) 128) } : UniformAnalogWaveform).m_startFemtoseconds =
      ⌊((3 / 2 : ℚ) - ((⌊(3 / 2 : ℚ)⌋ : Int) : ℚ)) * ((FS_PER_SECOND : Int) : ℚ)⌋) ∧
    (0 : Int) ≤ ({ m_timescale := ((1000 : Int) - 0).tdiv ((1 : Nat) : Int), m_triggerPhase := 0, m_startTimestamp := ⌊(3 / 2 : ℚ)⌋, m_startFemtoseconds := ⌊((3 / 2 : ℚ) - ((⌊(3 / 2 : ℚ)⌋ : Int) : ℚ)) * ((FS_PER_SECOND : Int) : ℚ)⌋, m_samples := (List.range 1).map (fun j => decodeSample ([123, 120, 0, 32, 125].getD (3 + 3 * j) 0) ([123, 120, 0, 32, 125].getD (2 + 3 * j) 0) 128) } : UniformAnalogWaveform).m_startFemtoseconds ∧
    ({ m_timescale := ((1000 : Int) - 0).tdiv ((1 : Nat) : Int), m_triggerPhase := 0, m_startTimestamp := ⌊(3 / 2 : ℚ)⌋, m_startFemtoseconds := ⌊((3 / 2 : ℚ) - ((⌊(3 / 2 : ℚ)⌋ : Int) : ℚ)) * ((FS_PER_SECOND : Int) : ℚ)⌋, m_samples := (List.range 1).map (fun j => decodeSample ([123, 120, 0, 32, 125].getD (3 + 3 * j) 0) ([123, 120, 0, 32, 125].getD (2 + 3 * j) 0) 128) } : UniformAnalogWaveform).m_startFemtoseconds < FS_PER_SECOND ∧
    ({ m_timescale := ((1000 : Int) - 0).tdiv ((1 : Nat) : Int), m_triggerPhase := 0, m_startTimestamp := ⌊(3 / 2 : ℚ)⌋, m_startFemtoseconds := ⌊((3 / 2 : ℚ) - ((⌊(3 / 2 : ℚ)⌋ : Int) : ℚ)) * ((FS_PER_SECOND : Int) : ℚ)⌋, m_samples := (List.range 1).map (fun j => decodeSample ([123, 120, 0, 32, 125].getD (3 + 3 * j) 0) ([123, 120, 0, 32, 125].getD (2 + 3 * j) 0) 128) } : UniformAnalogWaveform).m_samples.length = 1 :=
  C8_waveform_stamps 1 0 1000 128 (3 / 2) true (1 * 3 + 2) [123, 120, 0, 32, 125]
    { m_timescale := ((1000 : Int) - 0).tdiv ((1 : Nat) : Int), m_triggerPhase := 0, m_startTimestamp := ⌊(3 / 2 : ℚ)⌋, m_startFemtoseconds := ⌊((3 / 2 : ℚ) - ((⌊(3 / 2 : ℚ)⌋ : Int) : ℚ)) * ((FS_PER_SECOND : Int) : ℚ)⌋, m_samples := (List.range 1).map (fun j => decodeSample ([123, 120, 0, 32, 125].getD (3 + 3 * j) 0) ([123, 120, 0, 32, 125].getD (2 + 3 * j) 0) 128) }
    (acquireFromRead_waveform 1 0 1000 128 (3 / 2) true [123, 120, 0, 32, 125])

end Scopehal
